import Mathlib

/-!
Verification development for the TinyCC-WebUI core: a shallow embedding of
the framed-message decoder (src/stream-parser.js), the process turn runner
(src/cli-runner.js) and the per-connection orchestration logic
(src/server.js), together with theorems settling the specification claims.

Strings from the JavaScript source are modelled as `List Char`; JavaScript
exceptions become `Except` values; the mutable objects become explicit
state records threaded through the functions.
-/

namespace TinyCC

/-! ### Constants (src/constants.js) -/

/-- `MAX_INPUT_LENGTH` from src/constants.js. -/
def MAX_INPUT_LENGTH : Nat := 10000

/-- `MAX_BUFFER_SIZE` from src/constants.js (1 MiB). -/
def MAX_BUFFER_SIZE : Nat := 1024 * 1024

/-- `MAX_CONNECTIONS` from src/constants.js.  The active-connection counter
is a JavaScript number, modelled as `Int`, so the ceiling is an `Int`. -/
def MAX_CONNECTIONS : Int := 3

/-! ### Errors

The JavaScript code signals failures by throwing `Error` objects that are
distinguished by their message text; each constructor below stands for one
of those message strings (or for a fault of the underlying Node stream). -/

/-- One constructor per distinct failure the embedded code can raise. -/
inductive JsError where
  /-- `Input cannot be empty` (cli-runner.js / server.js). -/
  | emptyInput
  /-- `Input exceeds maximum length` (cli-runner.js / server.js). -/
  | inputTooLong
  /-- `CLI process not started` (cli-runner.js `sendInput`). -/
  | notStarted
  /-- `CLI process already running` (cli-runner.js `start`). -/
  | alreadyRunning
  /-- `Invalid session ID format` (cli-runner.js `validateSessionId`). -/
  | invalidSessionId
  /-- Node stream fault for writing to stdin after `stdin.end()`
  (`ERR_STREAM_WRITE_AFTER_END`): the channel state forbids a second write. -/
  | writeAfterEnd
  /-- `Buffer size exceeded maximum limit` (stream-parser.js `parse`). -/
  | bufferOverflow
  /-- `Invalid project name: path traversal detected` (server.js). -/
  | pathTraversal
  /-- `Unknown message type` (server.js). -/
  | unknownType
deriving DecidableEq

/-- Equality of `Except` results is decidable, so concrete runs of the
embedded functions can be checked by `decide`. -/
instance {ε α : Type} [DecidableEq ε] [DecidableEq α] :
    DecidableEq (Except ε α) := fun x y =>
  match x, y with
  | .ok a, .ok b =>
    if h : a = b then isTrue (by rw [h]) else isFalse (by simp [h])
  | .error a, .error b =>
    if h : a = b then isTrue (by rw [h]) else isFalse (by simp [h])
  | .ok _, .error _ => isFalse (by simp)
  | .error _, .ok _ => isFalse (by simp)

/-! ### Shared string helpers -/

/-- Model of JavaScript `String.prototype.trim`: drop whitespace from both
ends (`Char.isWhitespace` covers space, tab, CR, LF). -/
def jsTrim (l : List Char) : List Char :=
  ((l.dropWhile Char.isWhitespace).reverse.dropWhile Char.isWhitespace).reverse

/-! ### Framed-message decoder (src/stream-parser.js) -/

/-- A decoded stream-json message as far as the parser inspects it: the
host `JSON.parse` yields a value whose `type` field is read by
`processMessage`; the rest of the line is kept opaque as `payload`. -/
structure JsonObj where
  type : List Char
  payload : List Char
deriving DecidableEq

/-- The `StreamParser` instance state: its accumulating `buffer` field. -/
structure ParserState where
  buffer : List Char
deriving DecidableEq

/-- Model of `buffer.split('\n')` followed by `lines.pop() || ''`:
returns the complete (delimiter-terminated) segments and the trailing
remainder that becomes the new buffer. -/
def breakLines : List Char → List (List Char) × List Char
  | [] => ([], [])
  | c :: rest =>
    if c = '\n' then
      ([] :: (breakLines rest).1, (breakLines rest).2)
    else
      match breakLines rest with
      | ([], r) => ([], c :: r)
      | (l :: ls, r) => ((c :: l) :: ls, r)

/-- `StreamParser.processMessage`: messages with `type === 'system'` are
dropped; every other decoded message is handed to the registered callback
(the server always registers one before starting the runner, so the
callback-present check of the source is taken as true). -/
def processMessage (j : JsonObj) : Option JsonObj :=
  if j.type = ("system").toList then none else some j

/-- One iteration of the `for (const line of lines)` loop in
`StreamParser.parse`: skip the line if empty after trimming, skip it when
the host JSON decode `d` fails (the `catch {}` branch), otherwise apply
`processMessage`.  Returns the message dispatched for this line, if any. -/
def handleLine (d : List Char → Option JsonObj) (line : List Char) :
    Option JsonObj :=
  if (jsTrim line).length = 0 then none
  else
    match d line with
    | none => none
    | some j => processMessage j

/-- `StreamParser.parse`, with the host `JSON.parse` as parameter `d`.
`st.buffer ++ chunk` is the `this.buffer += chunk` result; if its length
exceeds `MAX_BUFFER_SIZE` the call throws, leaving the appended buffer in
place; otherwise the buffer is split, the trailing remainder is kept and
each complete line is processed in order.  The returned list is the
sequence of messages dispatched to the callback during this call. -/
def parse (d : List Char → Option JsonObj) (st : ParserState)
    (chunk : List Char) : ParserState × Except JsError (List JsonObj) :=
  if (st.buffer ++ chunk).length > MAX_BUFFER_SIZE then
    (⟨st.buffer ++ chunk⟩, .error .bufferOverflow)
  else
    (⟨(breakLines (st.buffer ++ chunk)).2⟩,
      .ok ((breakLines (st.buffer ++ chunk)).1.filterMap (handleLine d)))

/-- Feed a sequence of chunks to one parser, the way the server's
`onOutput` handler does: each chunk is one `parse` call; a throwing call is
caught and feeding continues (the server sends a notice and keeps going).
Returns the final state, the concatenated dispatched messages, and whether
any call faulted. -/
def runChunks (d : List Char → Option JsonObj) :
    ParserState → List (List Char) → ParserState × List JsonObj × Bool
  | st, [] => (st, [], false)
  | st, c :: cs =>
    match parse d st c with
    | (st1, .ok ms) =>
      match runChunks d st1 cs with
      | (st2, ms2, f) => (st2, ms ++ ms2, f)
    | (st1, .error _) =>
      match runChunks d st1 cs with
      | (st2, ms2, _) => (st2, ms2, true)

/-- A stream consisting of the given delimiter-terminated lines. -/
def joinLines (ls : List (List Char)) : List Char :=
  (ls.map (fun l => l ++ ['\n'])).flatten

/-- A concrete instantiation of the host `JSON.parse` parameter, used to
evaluate the decoder on concrete inputs: lines starting with `!` fail to
decode, lines starting with `s` decode to a `system`-typed message, and
every other nonempty line decodes to an `a`-typed message. -/
def decodeSample (l : List Char) : Option JsonObj :=
  match l.head? with
  | none => none
  | some c =>
    if c = '!' then none
    else if c = 's' then some ⟨("system").toList, l⟩
    else some ⟨['a'], l⟩

/-! ### Process turn runner (src/cli-runner.js) -/

/-- One hexadecimal digit, upper or lower case (the regex character class
`[0-9a-f]` under the `/i` flag). -/
def isHexDigit (c : Char) : Bool :=
  c.isDigit || (('a' ≤ c) && (c ≤ 'f')) || (('A' ≤ c) && (c ≤ 'F'))

/-- `SESSION_ID_PATTERN` from src/constants.js: 36 characters, hyphens at
positions 8, 13, 18 and 23, hex digits everywhere else (UUID v4 shape,
groups of 8-4-4-4-12). -/
def matchesSessionIdPattern (s : List Char) : Bool :=
  (s.length = 36) &&
    (List.range 36).all fun i =>
      if i = 8 || i = 13 || i = 18 || i = 23 then s.getD i ' ' = '-'
      else isHexDigit (s.getD i ' ')

/-- `validateSessionId` from src/cli-runner.js. -/
def validateSessionId (s : List Char) : Except JsError Unit :=
  if matchesSessionIdPattern s then .ok () else .error .invalidSessionId

/-- The spawned child process as the runner observes it: the command, the
argument vector, the `shell` option, and the stdin channel (its recorded
writes plus whether `stdin.end()` has been called). -/
structure SpawnedProc where
  cmd : List Char
  args : List (List Char)
  shell : Bool
  stdinWrites : List (List Char)
  stdinClosed : Bool
deriving DecidableEq

/-- The `CLIRunner` instance state.  The three callback slots carry no
data relevant to the claims and are omitted; callback wiring is modelled
at the orchestrator level. -/
structure CLIRunner where
  sessionId : Option (List Char)
  process : Option SpawnedProc
deriving DecidableEq

/-- JavaScript `x || null` applied to an optional string: the empty string
is falsy and collapses to `null`. -/
def jsOptStr (o : Option (List Char)) : Option (List Char) :=
  match o with
  | some [] => none
  | x => x

/-- The `CLIRunner` constructor: `options.sessionId || null`, then
`validateSessionId` whenever a session id is present. -/
def CLIRunner.new (sessionId : Option (List Char)) :
    Except JsError CLIRunner :=
  match jsOptStr sessionId with
  | some sid =>
    match validateSessionId sid with
    | .error e => .error e
    | .ok _ => .ok ⟨some sid, none⟩
  | none => .ok ⟨none, none⟩

/-- The argument vector built in `CLIRunner.start`: the fixed list
`['-p', '--output-format', 'stream-json']`, extended with
`['-r', sessionId]` exactly when a session id is present. -/
def cliArgs (sessionId : Option (List Char)) : List (List Char) :=
  [("-p").toList, ("--output-format").toList, ("stream-json").toList] ++
    (match sessionId with
     | some sid => [("-r").toList, sid]
     | none => [])

/-- `CLIRunner.start`: throws when a process is already present, otherwise
spawns `claude` with `cliArgs` and `shell: false`. -/
def CLIRunner.start (r : CLIRunner) : Except JsError CLIRunner :=
  match r.process with
  | some _ => .error .alreadyRunning
  | none =>
    .ok { r with
      process := some ⟨("claude").toList, cliArgs r.sessionId, false, [], false⟩ }

/-- `CLIRunner.sendInput`: throws when no process is present; rejects
input that is empty after trimming, and input whose untrimmed length
exceeds `MAX_INPUT_LENGTH`; otherwise writes `input ++ '\n'` to stdin and
closes the channel.  A write after `stdin.end()` is the Node stream fault
`ERR_STREAM_WRITE_AFTER_END`, modelled as `JsError.writeAfterEnd`. -/
def CLIRunner.sendInput (r : CLIRunner) (input : List Char) :
    Except JsError CLIRunner :=
  match r.process with
  | none => .error .notStarted
  | some p =>
    if (jsTrim input).length = 0 then .error .emptyInput
    else if input.length > MAX_INPUT_LENGTH then .error .inputTooLong
    else if p.stdinClosed then .error .writeAfterEnd
    else
      .ok { r with
        process := some { p with
          stdinWrites := p.stdinWrites ++ [input ++ ['\n']],
          stdinClosed := true } }

/-- `CLIRunner.stop`: kill the process (if any) and clear the handle. -/
def CLIRunner.stop (r : CLIRunner) : CLIRunner :=
  { r with process := none }

/-! ### Connection orchestrator (src/server.js) -/

/-- `validateInput` from src/server.js: reject input that is empty after
trimming, and input whose untrimmed length exceeds `MAX_INPUT_LENGTH`. -/
def validateInput (input : List Char) : Except JsError Unit :=
  if (jsTrim input).length = 0 then .error .emptyInput
  else if input.length > MAX_INPUT_LENGTH then .error .inputTooLong
  else .ok ()

/-- Split a string on a separator character; models the segment view of a
POSIX path string (`'a/b'` gives `[a, b]`, with empty segments for leading
or doubled separators). -/
def splitChar (sep : Char) : List Char → List (List Char)
  | [] => [[]]
  | c :: rest =>
    if c = sep then [] :: splitChar sep rest
    else
      match splitChar sep rest with
      | [] => [[c]]
      | s :: ss => (c :: s) :: ss

/-- Path normalization as performed by Node's `path.resolve`: `.` and
empty segments disappear, `..` removes the previous segment (and is a
no-op at the root). -/
def normalizeSegs (segs : List (List Char)) : List (List Char) :=
  segs.foldl
    (fun acc s =>
      if s = [] || s = ['.'] then acc
      else if s = ['.', '.'] then acc.dropLast
      else acc ++ [s])
    []

/-- `path.resolve(base, name)` where `base` is an absolute, already
normalized path given as segments: an absolute `name` replaces the base,
a relative one is appended, and the result is normalized. -/
def jsPathResolve (base : List (List Char)) (name : List Char) :
    List (List Char) :=
  if name.head? = some '/' then normalizeSegs (splitChar '/' name)
  else normalizeSegs (base ++ splitChar '/' name)

/-- The control messages of the WebSocket protocol (client to server),
after JSON decoding of the frame.  `unknown` stands for any other
`message.type`. -/
inductive ClientMsg where
  | start (sessionId : Option (List Char))
  | input (text : List Char)
  | stop
  | listProjects
  | listSessions (projectName : Option (List Char))
  | unknown
deriving DecidableEq

/-- The messages the server sends on the WebSocket (`ws.send` calls).
`sessionsResp` records the directory the `SessionManager` collaborator was
invoked with; its file-scanning result is outside the embedded core. -/
inductive ServerMsg where
  | started (sessionId : Option (List Char))
  | forwarded (m : JsonObj)
  | exitNotice (code : Int)
  | errorNotice (text : List Char)
  | projectsResp
  | sessionsResp (dir : List (List Char))
deriving DecidableEq

/-- The per-connection mutable state of `handleConnection`: the
`cliRunner` and `streamParser` variables. -/
structure ConnState where
  runner : Option CLIRunner
  parserSt : Option ParserState
deriving DecidableEq

/-- The observable outcome of handling one control message: the new
connection state, the messages sent to the client, the directory the
Session Directory collaborator was invoked with (if it was), whether an
external process was spawned during handling, and whether the handler
closed the connection (it never does). -/
structure HandleResult where
  state : ConnState
  sent : List ServerMsg
  dirInvoked : Option (List (List Char))
  spawned : Bool
  closed : Bool
deriving DecidableEq

/-- The generic notice sent from the message handler's `catch` block. -/
def genericErrorText : List Char := ("Failed to process request").toList

/-- The `ws.on('message')` handler of `handleConnection` (src/server.js),
parameterized by the resolved projects base directory
(`path.join(os.homedir(), PROJECTS_BASE_DIR)`) and the default project
directory (`PROJECT_DIR`), both as absolute path segments.  Every thrown
error is caught by the surrounding `try`/`catch`, which sends the generic
error notice and leaves the connection open and the state unchanged. -/
def handleMessage (base dflt : List (List Char)) (st : ConnState) :
    ClientMsg → HandleResult
  | .start osid =>
    let sid := jsOptStr osid
    match CLIRunner.new sid with
    | .error _ => ⟨st, [.errorNotice genericErrorText], none, false, false⟩
    | .ok r =>
      match r.start with
      | .error _ => ⟨st, [.errorNotice genericErrorText], none, false, false⟩
      | .ok r1 =>
        ⟨⟨some r1, some ⟨[]⟩⟩, [.started sid], none, true, false⟩
  | .input t =>
    match validateInput t with
    | .error _ => ⟨st, [.errorNotice genericErrorText], none, false, false⟩
    | .ok _ =>
      match st.runner with
      | none => ⟨st, [.errorNotice genericErrorText], none, false, false⟩
      | some r =>
        match r.sendInput t with
        | .error _ =>
          ⟨st, [.errorNotice genericErrorText], none, false, false⟩
        | .ok r2 => ⟨⟨some r2, st.parserSt⟩, [], none, false, false⟩
  | .stop =>
    match st.runner with
    | some _ => ⟨⟨none, st.parserSt⟩, [], none, false, false⟩
    | none => ⟨st, [], none, false, false⟩
  | .listProjects => ⟨st, [.projectsResp], none, false, false⟩
  | .listSessions opn =>
    match jsOptStr opn with
    | some name =>
      let requested := jsPathResolve base name
      if base.isPrefixOf requested then
        ⟨st, [.sessionsResp requested], some requested, false, false⟩
      else ⟨st, [.errorNotice genericErrorText], none, false, false⟩
    | none => ⟨st, [.sessionsResp dflt], some dflt, false, false⟩
  | .unknown => ⟨st, [.errorNotice genericErrorText], none, false, false⟩

/-- The `cliRunner.onOutput` handler wired in `handleConnection`: feed the
chunk to the parser; forward each dispatched message to the client; on a
parser fault, send the generic parse-failure notice.  The final `Bool`
records whether the handler closed the connection (it never does). -/
def wiredOutput (d : List Char → Option JsonObj) (ps : ParserState)
    (chunk : List Char) : ParserState × List ServerMsg × Bool :=
  match parse d ps chunk with
  | (ps1, .ok ms) => (ps1, ms.map ServerMsg.forwarded, false)
  | (ps1, .error _) =>
    (ps1, [.errorNotice (("Failed to parse CLI output").toList)], false)

/-! ### Global connection counter (src/server.js accept/close) -/

/-- The listener-level shared state: the `activeConnections` counter (a
JavaScript number, hence `Int`) together with the number of accepted,
not-yet-closed connections (the connections whose `close` handler is
registered). -/
structure ServerState where
  active : Int
  opened : Nat
deriving DecidableEq

/-- The server state at startup. -/
def initialServerState : ServerState := ⟨0, 0⟩

/-- The accept path of `handleConnection`: an origin-rejected or
over-the-ceiling connection is closed before the counter is touched and
before any per-connection state or handler is created; otherwise the
counter is incremented and the connection is accepted.  Returns the new
state and whether the connection was accepted. -/
def handleConnect (s : ServerState) (originOk : Bool) :
    ServerState × Bool :=
  if !originOk then (s, false)
  else if s.active ≥ MAX_CONNECTIONS then (s, false)
  else (⟨s.active + 1, s.opened + 1⟩, true)

/-- The `ws.on('close')` handler: decrement the counter (registered only
for accepted connections, so it fires once per accepted connection). -/
def handleClose (s : ServerState) : ServerState :=
  ⟨s.active - 1, s.opened - 1⟩

/-- Connection-level events as the listener sees them. -/
inductive ConnEvent where
  | connect (originOk : Bool)
  | close
deriving DecidableEq

/-- Run a sequence of connection events.  A `close` event can only come
from an accepted, still-open connection; a trace violating that is not a
possible behaviour of the environment and yields `none`. -/
def runEvents : ServerState → List ConnEvent → Option ServerState
  | s, [] => some s
  | s, .connect ok :: evs => runEvents (handleConnect s ok).1 evs
  | s, .close :: evs =>
    if s.opened = 0 then none else runEvents (handleClose s) evs

/-! ### Decoder lemmas -/

/-- A list without whitespace is unchanged by `List.dropWhile
Char.isWhitespace`. -/
theorem dropWhile_eq_self_of_not (p : Char → Bool) (l : List Char)
    (h : ∀ c ∈ l, p c = false) : l.dropWhile p = l := by
  induction l with
  | nil => rfl
  | cons c rest ih =>
    have hc : p c = false := h c (List.mem_cons_self c rest)
    simp only [List.dropWhile_cons, hc]
    simp

/-- A list without whitespace is unchanged by `jsTrim`. -/
theorem jsTrim_of_no_ws (l : List Char)
    (h : ∀ c ∈ l, c.isWhitespace = false) : jsTrim l = l := by
  unfold jsTrim
  rw [dropWhile_eq_self_of_not _ _ h]
  rw [dropWhile_eq_self_of_not _ _ (by intro c hc; exact h c (List.mem_reverse.mp hc))]
  exact List.reverse_reverse l

/-- Leading whitespace is dropped by `jsTrim`. -/
theorem jsTrim_cons_space (l : List Char) : jsTrim (' ' :: l) = jsTrim l := by
  unfold jsTrim
  simp [List.dropWhile_cons]

/-- The remainder kept in the buffer never contains a delimiter. -/
theorem breakLines_snd_no_newline (l : List Char) :
    '\n' ∉ (breakLines l).2 := by
  induction l with
  | nil => simp [breakLines]
  | cons c rest ih =>
    by_cases hc : c = '\n'
    · simp [breakLines, hc, ih]
    · rcases hbk : breakLines rest with ⟨ls, r⟩
      rw [hbk] at ih
      cases ls with
      | nil =>
        simp only [breakLines, if_neg hc, hbk]
        simp only [List.mem_cons, not_or]
        exact ⟨fun he => hc he.symm, ih⟩
      | cons l0 ls' =>
        simp only [breakLines, if_neg hc, hbk]
        exact ih

/-- A delimiter-free input produces no complete line and is kept whole in
the buffer. -/
theorem breakLines_no_newline (l : List Char) (h : '\n' ∉ l) :
    breakLines l = ([], l) := by
  induction l with
  | nil => rfl
  | cons c rest ih =>
    have hc : c ≠ '\n' := fun he => h (he ▸ List.mem_cons_self c rest)
    have hr : '\n' ∉ rest := fun hm => h (List.mem_cons_of_mem _ hm)
    simp [breakLines, hc, ih hr]

/-- If no complete line was produced, the buffer is the whole input. -/
theorem breakLines_fst_eq_nil (l : List Char)
    (h : (breakLines l).1 = []) : (breakLines l).2 = l := by
  induction l with
  | nil => rfl
  | cons c rest ih =>
    by_cases hc : c = '\n'
    · simp [breakLines, hc] at h
    · rcases hbk : breakLines rest with ⟨ls, r⟩
      rw [hbk] at ih
      cases ls with
      | nil =>
        simp only [breakLines, if_neg hc, hbk]
        simpa using ih rfl
      | cons l0 ls' =>
        rw [show breakLines (c :: rest) =
          ((c :: l0) :: ls', r) by simp [breakLines, hc, hbk]] at h
        simp at h

/-- Splitting a concatenation: the lines of `a ++ b` are the lines of `a`
followed by the lines of `a`'s remainder prepended to `b`; this is the
composition law behind chunking invariance. -/
theorem breakLines_append (a b : List Char) :
    breakLines (a ++ b) =
      ((breakLines a).1 ++ (breakLines ((breakLines a).2 ++ b)).1,
        (breakLines ((breakLines a).2 ++ b)).2) := by
  induction a with
  | nil => simp [breakLines]
  | cons c a' ih =>
    by_cases hc : c = '\n'
    · subst hc
      have hl : breakLines ('\n' :: (a' ++ b)) =
          ([] :: (breakLines (a' ++ b)).1, (breakLines (a' ++ b)).2) := by
        simp [breakLines]
      have hr2 : breakLines ('\n' :: a') =
          ([] :: (breakLines a').1, (breakLines a').2) := by
        simp [breakLines]
      rw [List.cons_append, hl, hr2, ih]
      simp
    · rcases hbl : breakLines a' with ⟨ls, r⟩
      cases ls with
      | nil =>
        have ha : r = a' := by
          have h2 := breakLines_fst_eq_nil a' (by rw [hbl])
          rwa [hbl] at h2
        have hca : breakLines (c :: a') = ([], c :: a') := by
          simp only [breakLines, if_neg hc, hbl, ha]
        rw [hca]
        simp
      | cons l0 ls' =>
        have ih' : breakLines (a' ++ b) =
            (l0 :: (ls' ++ (breakLines (r ++ b)).1),
              (breakLines (r ++ b)).2) := by
          rw [hbl] at ih
          simpa using ih
        have hca : breakLines (c :: a') = ((c :: l0) :: ls', r) := by
          simp only [breakLines, if_neg hc, hbl]
        rw [hca]
        show breakLines (c :: (a' ++ b)) = _
        simp only [breakLines, if_neg hc, ih']
        simp

/-- Splitting off one complete delimiter-terminated line. -/
theorem breakLines_line (l : List Char) (h : '\n' ∉ l) (rest : List Char) :
    breakLines (l ++ '\n' :: rest) =
      (l :: (breakLines rest).1, (breakLines rest).2) := by
  induction l with
  | nil => simp [breakLines]
  | cons c l' ih =>
    have hc : c ≠ '\n' := fun he => h (he ▸ List.mem_cons_self c l')
    have hl : '\n' ∉ l' := fun hm => h (List.mem_cons_of_mem _ hm)
    show breakLines (c :: (l' ++ '\n' :: rest)) = _
    simp only [breakLines, if_neg hc]
    rw [ih hl]

/-- A stream of complete lines splits back into exactly those lines, with
an empty remainder. -/
theorem breakLines_joinLines (ls : List (List Char))
    (h : ∀ l ∈ ls, '\n' ∉ l) : breakLines (joinLines ls) = (ls, []) := by
  induction ls with
  | nil => rfl
  | cons l ls ih =>
    have hjoin : joinLines (l :: ls) = l ++ '\n' :: joinLines ls := by
      simp [joinLines]
    rw [hjoin, breakLines_line l (h l (List.mem_cons_self l ls)),
      ih (fun x hx => h x (List.mem_cons_of_mem _ hx))]

/-- The input is recovered from its complete lines and its remainder. -/
theorem breakLines_reconstruct (l : List Char) :
    joinLines (breakLines l).1 ++ (breakLines l).2 = l := by
  induction l with
  | nil => rfl
  | cons c rest ih =>
    by_cases hc : c = '\n'
    · subst hc
      rcases hbk : breakLines rest with ⟨ls, r⟩
      rw [hbk] at ih
      simp only [breakLines, if_pos rfl, hbk]
      simpa [joinLines] using ih
    · rcases hbk : breakLines rest with ⟨ls, r⟩
      rw [hbk] at ih
      cases ls with
      | nil =>
        simp only [breakLines, if_neg hc, hbk]
        simpa [joinLines] using congrArg (c :: ·) ih
      | cons l0 ls' =>
        simp only [breakLines, if_neg hc, hbk]
        simp only [joinLines, List.map_cons, List.flatten_cons] at ih ⊢
        simp [← List.append_assoc, ih]

/-- Master lemma for the decoder: a fault-free run over any chunk sequence
leaves in the buffer exactly the remainder after the last delimiter of the
cumulative input, and dispatches exactly the per-line processing of all
complete lines of the cumulative input, in order. -/
theorem runChunks_ok (d : List Char → Option JsonObj)
    (cs : List (List Char)) :
    ∀ b0 st ms, '\n' ∉ b0 →
      runChunks d ⟨b0⟩ cs = (st, ms, false) →
      st.buffer = (breakLines (b0 ++ cs.flatten)).2 ∧
        ms = (breakLines (b0 ++ cs.flatten)).1.filterMap (handleLine d) := by
  induction cs with
  | nil =>
    intro b0 st ms hb h
    simp only [runChunks, Prod.mk.injEq] at h
    obtain ⟨rfl, rfl, -⟩ := h
    simp [breakLines_no_newline b0 hb]
  | cons c cs ih =>
    intro b0 st ms hb h
    rcases hp : parse d ⟨b0⟩ c with ⟨st1, res⟩
    cases res with
    | error e =>
      rw [runChunks, hp] at h
      rcases hr : runChunks d st1 cs with ⟨st2, ms2, f2⟩
      simp [hr] at h
    | ok msl =>
      rw [runChunks, hp] at h
      rcases hr : runChunks d st1 cs with ⟨st2, ms2, f2⟩
      simp only [hr, Prod.mk.injEq] at h
      obtain ⟨rfl, rfl, rfl⟩ := h
      unfold parse at hp
      split at hp
      · simp at hp
      · simp only [Prod.mk.injEq, Except.ok.injEq] at hp
        obtain ⟨hp1, hp2⟩ := hp
        subst hp1
        subst hp2
        have hrec := ih (breakLines (b0 ++ c)).2 st2 ms2
          (breakLines_snd_no_newline (b0 ++ c)) hr
        constructor
        · rw [show b0 ++ (c :: cs).flatten = (b0 ++ c) ++ cs.flatten by
            simp [List.append_assoc]]
          rw [breakLines_append (b0 ++ c) cs.flatten]
          exact hrec.1
        · rw [show b0 ++ (c :: cs).flatten = (b0 ++ c) ++ cs.flatten by
            simp [List.append_assoc]]
          rw [breakLines_append (b0 ++ c) cs.flatten]
          simp only [List.filterMap_append]
          rw [hrec.2]

/-- A nonempty line list joins to a delimiter-terminated stream. -/
theorem joinLines_ends (ls : List (List Char)) (h : ls ≠ []) :
    ∃ q, joinLines ls = q ++ ['\n'] := by
  induction ls with
  | nil => exact absurd rfl h
  | cons l ls ih =>
    cases ls with
    | nil => exact ⟨l, by simp [joinLines]⟩
    | cons l2 ls2 =>
      obtain ⟨q, hq⟩ := ih (by simp)
      refine ⟨l ++ '\n' :: q, ?_⟩
      have : joinLines (l :: l2 :: ls2) = l ++ '\n' :: joinLines (l2 :: ls2) := by
        simp [joinLines]
      rw [this, hq]
      simp

/-! ### Runner lemmas -/

/-- `jsOptStr` keeps a nonempty string. -/
theorem jsOptStr_some_ne (s : List Char) (h : s ≠ []) :
    jsOptStr (some s) = some s := by
  cases s with
  | nil => exact absurd rfl h
  | cons c rest => rfl

/-- A successfully constructed runner holds the falsy-collapsed session id
and no process. -/
theorem CLIRunner.new_shape (osid : Option (List Char)) (r : CLIRunner)
    (h : CLIRunner.new osid = .ok r) : r = ⟨jsOptStr osid, none⟩ := by
  unfold CLIRunner.new at h
  cases hjs : jsOptStr osid with
  | none =>
    rw [hjs] at h
    exact (Except.ok.inj h).symm
  | some sid =>
    rw [hjs] at h
    have h2 : (match validateSessionId sid with
        | .error e => (.error e : Except JsError CLIRunner)
        | .ok _ => .ok ⟨some sid, none⟩) = .ok r := h
    cases hv : validateSessionId sid with
    | error e =>
      rw [hv] at h2
      exact absurd h2 (by simp)
    | ok u =>
      rw [hv] at h2
      exact (Except.ok.inj h2).symm

/-- Starting a not-yet-started runner spawns the process with the fixed
arguments, `shell: false`, and a fresh open stdin channel. -/
theorem CLIRunner.start_shape (r : CLIRunner) (hp : r.process = none) :
    r.start = .ok ⟨r.sessionId,
      some ⟨("claude").toList, cliArgs r.sessionId, false, [], false⟩⟩ := by
  unfold CLIRunner.start
  rw [hp]

/-! ### Connection-counter lemmas -/

/-- `handleConnect` and `handleClose` keep the counter equal to the number
of open accepted connections and below the ceiling; `runEvents` therefore
maintains this invariant from the initial state. -/
theorem runEvents_inv (evs : List ConnEvent) :
    ∀ s s', s.active = (s.opened : Int) → s.opened ≤ 3 →
      runEvents s evs = some s' →
      s'.active = (s'.opened : Int) ∧ s'.opened ≤ 3 := by
  induction evs with
  | nil =>
    intro s s' h1 h2 h
    simp only [runEvents, Option.some.injEq] at h
    subst h
    exact ⟨h1, h2⟩
  | cons e evs ih =>
    intro s s' h1 h2 h
    cases e with
    | connect ok =>
      rw [runEvents] at h
      cases ok with
      | false =>
        have hc : handleConnect s false = (s, false) := rfl
        rw [hc] at h
        exact ih s s' h1 h2 h
      | true =>
        have hc : handleConnect s true =
            if s.active ≥ MAX_CONNECTIONS then (s, false)
            else (⟨s.active + 1, s.opened + 1⟩, true) := by
          simp [handleConnect]
        rw [hc] at h
        by_cases hful : s.active ≥ MAX_CONNECTIONS
        · rw [if_pos hful] at h
          exact ih s s' h1 h2 h
        · rw [if_neg hful] at h
          have h' : runEvents ⟨s.active + 1, s.opened + 1⟩ evs = some s' := h
          have hlt : (s.opened : Int) < 3 := by
            rw [← h1]
            exact lt_of_not_ge (by simpa [MAX_CONNECTIONS] using hful)
          refine ih _ s' ?_ ?_ h'
          · show s.active + 1 = ((s.opened + 1 : Nat) : Int)
            rw [h1]
            push_cast
            ring
          · show s.opened + 1 ≤ 3
            omega
    | close =>
      rw [runEvents] at h
      split at h
      · exact absurd h (by simp)
      · rename_i hop
        refine ih _ s' ?_ ?_ h
        · simp only [handleClose]
          omega
        · simp only [handleClose]
          omega

/-! ### Claim C1 -/

/-- Claim C1: on every started Turn Runner, a first `sendInput` with valid
text succeeds — it writes `text ++ '\n'` to the process input channel and
closes that channel — and any second `sendInput` on the same runner
instance fails: never with success, and for valid text with the
channel-state fault `writeAfterEnd` (the closed stdin forbids a second
write). -/
theorem sendInput_succeeds_once (osid : Option (List Char))
    (r0 r1 : CLIRunner) (text : List Char)
    (hnew : CLIRunner.new osid = .ok r0)
    (hstart : r0.start = .ok r1)
    (htrim : (jsTrim text).length ≠ 0)
    (hlen : text.length ≤ MAX_INPUT_LENGTH) :
    ∃ r2, r1.sendInput text = .ok r2 ∧
      (∃ p2, r2.process = some p2 ∧ p2.stdinWrites = [text ++ ['\n']] ∧
        p2.stdinClosed = true) ∧
      (∀ t2, (jsTrim t2).length ≠ 0 → t2.length ≤ MAX_INPUT_LENGTH →
        r2.sendInput t2 = .error .writeAfterEnd) ∧
      (∀ t2 r3, r2.sendInput t2 ≠ .ok r3) := by
  have hr0 := CLIRunner.new_shape osid r0 hnew
  subst hr0
  rw [CLIRunner.start_shape _ rfl] at hstart
  have hr1 := Except.ok.inj hstart
  subst hr1
  refine ⟨⟨jsOptStr osid, some ⟨("claude").toList, cliArgs (jsOptStr osid),
    false, [text ++ ['\n']], true⟩⟩, ?_, ⟨_, rfl, rfl, rfl⟩, ?_, ?_⟩
  · simp [CLIRunner.sendInput, htrim, not_lt.mpr hlen]
  · intro t2 ht2 hl2
    simp [CLIRunner.sendInput, ht2, not_lt.mpr hl2]
  · intro t2 r3
    unfold CLIRunner.sendInput
    by_cases h1 : (jsTrim t2).length = 0
    · simp [h1]
    · by_cases h2 : t2.length > MAX_INPUT_LENGTH
      · simp [h1, h2]
      · simp [h1, h2]

/-- Witness for C1 at a concrete runner and input. -/
theorem sendInput_succeeds_once_witness :
    CLIRunner.new none = .ok ⟨none, none⟩ ∧
    (CLIRunner.mk none none).start = .ok ⟨none, some ⟨("claude").toList,
      cliArgs none, false, [], false⟩⟩ ∧
    (jsTrim (("hi").toList)).length ≠ 0 ∧
    (("hi").toList).length ≤ MAX_INPUT_LENGTH ∧
    (∃ r2, (CLIRunner.mk none (some ⟨("claude").toList, cliArgs none,
        false, [], false⟩)).sendInput (("hi").toList) = .ok r2 ∧
      (∃ p2, r2.process = some p2 ∧
        p2.stdinWrites = [("hi").toList ++ ['\n']] ∧
        p2.stdinClosed = true) ∧
      (∀ t2, (jsTrim t2).length ≠ 0 → t2.length ≤ MAX_INPUT_LENGTH →
        r2.sendInput t2 = .error .writeAfterEnd) ∧
      (∀ t2 r3, r2.sendInput t2 ≠ .ok r3)) :=
  ⟨by decide, by decide, by decide, by decide,
    sendInput_succeeds_once none ⟨none, none⟩
      ⟨none, some ⟨("claude").toList, cliArgs none, false, [], false⟩⟩
      (("hi").toList) (by decide) (by decide) (by decide) (by decide)⟩

/-! ### Claim C9 -/

/-- Claim C9: `start()` spawns the process with exactly the fixed argument
vector `['-p', '--output-format', 'stream-json']`, extended with
`['-r', token]` exactly when a validated resumption token is present, with
shell interpretation disabled; the client payload reaches only the input
channel (as `text ++ '\n'`, the channel closed immediately after the
write) and never the argument list, which is unchanged by `sendInput`. -/
theorem spawn_contract (osid : Option (List Char)) (r0 r1 : CLIRunner)
    (hnew : CLIRunner.new osid = .ok r0) (hstart : r0.start = .ok r1) :
    ∃ p, r1.process = some p ∧
      p.cmd = ("claude").toList ∧
      p.shell = false ∧
      p.args = cliArgs (jsOptStr osid) ∧
      cliArgs (jsOptStr osid) =
        [("-p").toList, ("--output-format").toList, ("stream-json").toList]
          ++ (match jsOptStr osid with
              | some sid => [("-r").toList, sid]
              | none => []) ∧
      p.stdinWrites = [] ∧
      (∀ text r2, r1.sendInput text = .ok r2 →
        ∃ p2, r2.process = some p2 ∧ p2.args = p.args ∧ p2.cmd = p.cmd ∧
          p2.shell = false ∧ p2.stdinWrites = [text ++ ['\n']] ∧
          p2.stdinClosed = true) := by
  have hr0 := CLIRunner.new_shape osid r0 hnew
  subst hr0
  rw [CLIRunner.start_shape _ rfl] at hstart
  have hr1 := Except.ok.inj hstart
  subst hr1
  refine ⟨_, rfl, rfl, rfl, rfl, rfl, rfl, ?_⟩
  intro text r2 hsend
  unfold CLIRunner.sendInput at hsend
  by_cases h1 : (jsTrim text).length = 0
  · simp [h1] at hsend
  · by_cases h2 : text.length > MAX_INPUT_LENGTH
    · simp [h1, h2] at hsend
    · have hsend' : (Except.ok ⟨jsOptStr osid, some ⟨("claude").toList,
          cliArgs (jsOptStr osid), false, [text ++ ['\n']], true⟩⟩ :
            Except JsError CLIRunner) = .ok r2 := by
        simpa [h1, h2] using hsend
      have hr2 := Except.ok.inj hsend'
      refine ⟨⟨("claude").toList, cliArgs (jsOptStr osid), false,
        [text ++ ['\n']], true⟩, ?_, rfl, rfl, rfl, rfl, rfl⟩
      rw [← hr2]

/-- Witness for C9 with a concrete resumption token. -/
theorem spawn_contract_witness :
    CLIRunner.new (some (("550e8400-e29b-41d4-a716-446655440000").toList)) =
      .ok ⟨some (("550e8400-e29b-41d4-a716-446655440000").toList), none⟩ ∧
    (CLIRunner.mk
        (some (("550e8400-e29b-41d4-a716-446655440000").toList)) none).start =
      .ok ⟨some (("550e8400-e29b-41d4-a716-446655440000").toList),
        some ⟨("claude").toList,
          cliArgs (some (("550e8400-e29b-41d4-a716-446655440000").toList)),
          false, [], false⟩⟩ ∧
    (∃ p, (CLIRunner.mk
        (some (("550e8400-e29b-41d4-a716-446655440000").toList))
        (some ⟨("claude").toList,
          cliArgs (some (("550e8400-e29b-41d4-a716-446655440000").toList)),
          false, [], false⟩)).process = some p ∧
      p.cmd = ("claude").toList ∧
      p.shell = false ∧
      p.args = cliArgs (jsOptStr
        (some (("550e8400-e29b-41d4-a716-446655440000").toList))) ∧
      cliArgs (jsOptStr
          (some (("550e8400-e29b-41d4-a716-446655440000").toList))) =
        [("-p").toList, ("--output-format").toList, ("stream-json").toList]
          ++ (match jsOptStr
                (some (("550e8400-e29b-41d4-a716-446655440000").toList)) with
              | some sid => [("-r").toList, sid]
              | none => []) ∧
      p.stdinWrites = [] ∧
      (∀ text r2,
        (CLIRunner.mk
            (some (("550e8400-e29b-41d4-a716-446655440000").toList))
            (some ⟨("claude").toList,
              cliArgs
                (some (("550e8400-e29b-41d4-a716-446655440000").toList)),
              false, [], false⟩)).sendInput text = .ok r2 →
        ∃ p2, r2.process = some p2 ∧ p2.args = p.args ∧ p2.cmd = p.cmd ∧
          p2.shell = false ∧ p2.stdinWrites = [text ++ ['\n']] ∧
          p2.stdinClosed = true)) :=
  ⟨by decide, by decide,
    spawn_contract (some (("550e8400-e29b-41d4-a716-446655440000").toList))
      ⟨some (("550e8400-e29b-41d4-a716-446655440000").toList), none⟩
      ⟨some (("550e8400-e29b-41d4-a716-446655440000").toList),
        some ⟨("claude").toList,
          cliArgs (some (("550e8400-e29b-41d4-a716-446655440000").toList)),
          false, [], false⟩⟩
      (by decide) (by decide)⟩

/-! ### Claim C5 -/

/-- Claim C5 as stated is false: the input `' ' :: 'a' * 10000` has length
10000 after trimming — inside the claimed acceptance range 1..10000 — yet
`validateInput` rejects it, because the length limit is checked on the
untrimmed input (10001 characters). -/
theorem input_validation_cex :
    1 ≤ (jsTrim (' ' :: List.replicate 10000 'a')).length ∧
    (jsTrim (' ' :: List.replicate 10000 'a')).length ≤ 10000 ∧
    validateInput (' ' :: List.replicate 10000 'a') =
      .error .inputTooLong := by
  have htrim : jsTrim (' ' :: List.replicate 10000 'a') =
      List.replicate 10000 'a' := by
    rw [jsTrim_cons_space]
    exact jsTrim_of_no_ws _ (by
      intro c hc
      rw [List.eq_of_mem_replicate hc]
      rfl)
  refine ⟨?_, ?_, ?_⟩
  · rw [htrim, List.length_replicate]
    norm_num
  · rw [htrim, List.length_replicate]
  · have hlen : (' ' :: List.replicate 10000 'a').length = 10001 := by
      rw [List.length_cons, List.length_replicate]
    unfold validateInput
    rw [htrim]
    rw [if_neg (by rw [List.length_replicate]; decide)]
    rw [if_pos (by rw [hlen]; decide)]

/-- Claim C5 (amended): the validation applied at the Orchestrator
boundary (`validateInput`) and inside the Runner (`sendInput`) accepts a
string iff it is nonempty after trimming AND its untrimmed length is at
most 10000; on rejection a validation error is raised, the runner state is
untouched (so the input channel is never written), and the orchestrator
answers the request with the generic error notice. -/
theorem input_validation_rule (t : List Char) (osid : Option (List Char))
    (r0 r1 : CLIRunner)
    (hnew : CLIRunner.new osid = .ok r0) (hstart : r0.start = .ok r1) :
    (validateInput t = .ok () ↔
      (jsTrim t).length ≠ 0 ∧ t.length ≤ MAX_INPUT_LENGTH) ∧
    (∀ e, validateInput t = .error e → r1.sendInput t = .error e) ∧
    ((∃ r2, r1.sendInput t = .ok r2) ↔
      (jsTrim t).length ≠ 0 ∧ t.length ≤ MAX_INPUT_LENGTH) ∧
    (∀ e base dflt st, validateInput t = .error e →
      handleMessage base dflt st (.input t) =
        ⟨st, [.errorNotice genericErrorText], none, false, false⟩) := by
  have hr0 := CLIRunner.new_shape osid r0 hnew
  subst hr0
  rw [CLIRunner.start_shape _ rfl] at hstart
  have hr1 := Except.ok.inj hstart
  have hps : r1.process = some ⟨("claude").toList, cliArgs (jsOptStr osid),
      false, [], false⟩ := by
    rw [← hr1]
  have hval : ∀ e, validateInput t = .error e → r1.sendInput t = .error e :=
    by
    intro e he
    unfold validateInput at he
    unfold CLIRunner.sendInput
    rw [hps]
    by_cases h1 : (jsTrim t).length = 0
    · rw [if_pos h1] at he
      simp [h1, ← Except.error.inj he]
    · rw [if_neg h1] at he
      by_cases h2 : t.length > MAX_INPUT_LENGTH
      · rw [if_pos h2] at he
        simp [h1, h2, ← Except.error.inj he]
      · rw [if_neg h2] at he
        exact absurd he (by simp)
  refine ⟨?_, hval, ?_, ?_⟩
  · constructor
    · intro h
      unfold validateInput at h
      by_cases h1 : (jsTrim t).length = 0
      · rw [if_pos h1] at h
        exact absurd h (by simp)
      · by_cases h2 : t.length > MAX_INPUT_LENGTH
        · rw [if_neg h1, if_pos h2] at h
          exact absurd h (by simp)
        · exact ⟨h1, not_lt.mp h2⟩
    · intro ⟨h1, h2⟩
      unfold validateInput
      rw [if_neg h1, if_neg (not_lt.mpr h2)]
  · constructor
    · intro ⟨r2, h⟩
      unfold CLIRunner.sendInput at h
      rw [hps] at h
      by_cases h1 : (jsTrim t).length = 0
      · simp [h1] at h
      · by_cases h2 : t.length > MAX_INPUT_LENGTH
        · simp [h1, h2] at h
        · exact ⟨h1, not_lt.mp h2⟩
    · intro ⟨h1, h2⟩
      refine ⟨⟨r1.sessionId, some ⟨("claude").toList,
        cliArgs (jsOptStr osid), false, [t ++ ['\n']], true⟩⟩, ?_⟩
      unfold CLIRunner.sendInput
      rw [hps]
      simp [h1, not_lt.mpr h2]
  · intro e base dflt st he
    simp [handleMessage, he]

/-- Witness for the amended C5 at a concrete runner and input. -/
theorem input_validation_rule_witness :
    CLIRunner.new none = .ok ⟨none, none⟩ ∧
    (CLIRunner.mk none none).start = .ok ⟨none, some ⟨("claude").toList,
      cliArgs none, false, [], false⟩⟩ ∧
    ((validateInput (("ok").toList) = .ok () ↔
      (jsTrim (("ok").toList)).length ≠ 0 ∧
        (("ok").toList).length ≤ MAX_INPUT_LENGTH) ∧
    (∀ e, validateInput (("ok").toList) = .error e →
      (CLIRunner.mk none (some ⟨("claude").toList, cliArgs none,
        false, [], false⟩)).sendInput (("ok").toList) = .error e) ∧
    ((∃ r2, (CLIRunner.mk none (some ⟨("claude").toList, cliArgs none,
        false, [], false⟩)).sendInput (("ok").toList) = .ok r2) ↔
      (jsTrim (("ok").toList)).length ≠ 0 ∧
        (("ok").toList).length ≤ MAX_INPUT_LENGTH) ∧
    (∀ e base dflt st, validateInput (("ok").toList) = .error e →
      handleMessage base dflt st (.input (("ok").toList)) =
        ⟨st, [.errorNotice genericErrorText], none, false, false⟩)) :=
  ⟨by decide, by decide,
    input_validation_rule (("ok").toList) none ⟨none, none⟩
      ⟨none, some ⟨("claude").toList, cliArgs none, false, [], false⟩⟩
      (by decide) (by decide)⟩

/-! ### Claim C2 -/

/-- Claim C2: when the cumulative buffered length exceeds the 1 MiB
ceiling before a delimiter is seen, `parse` raises the buffer-overflow
fault and forwards no message — partial or complete — to the callback
(the result carries `.error`, not a message list); the server's wired
output handler turns this into exactly one generic error notice to the
client and does not close the connection, so the fault is scoped to the
current turn. -/
theorem overflow_no_forward (d : List Char → Option JsonObj)
    (ps : ParserState) (chunk : List Char)
    (h : (ps.buffer ++ chunk).length > MAX_BUFFER_SIZE) :
    parse d ps chunk = (⟨ps.buffer ++ chunk⟩, .error .bufferOverflow) ∧
    wiredOutput d ps chunk = (⟨ps.buffer ++ chunk⟩,
      [.errorNotice (("Failed to parse CLI output").toList)], false) := by
  have hp : parse d ps chunk =
      (⟨ps.buffer ++ chunk⟩, .error .bufferOverflow) := by
    unfold parse
    rw [if_pos h]
  refine ⟨hp, ?_⟩
  unfold wiredOutput
  rw [hp]

/-- Witness for C2 at an oversized concrete buffer. -/
theorem overflow_no_forward_witness :
    (((⟨List.replicate 1048577 'a'⟩ : ParserState).buffer ++
        ([] : List Char)).length > MAX_BUFFER_SIZE) ∧
    parse decodeSample ⟨List.replicate 1048577 'a'⟩ [] =
      (⟨List.replicate 1048577 'a' ++ []⟩, .error .bufferOverflow) ∧
    wiredOutput decodeSample ⟨List.replicate 1048577 'a'⟩ [] =
      (⟨List.replicate 1048577 'a' ++ []⟩,
        [.errorNotice (("Failed to parse CLI output").toList)], false) := by
  have h : (((⟨List.replicate 1048577 'a'⟩ : ParserState).buffer ++
      ([] : List Char)).length > MAX_BUFFER_SIZE) := by
    rw [List.append_nil, List.length_replicate]
    decide
  exact ⟨h, (overflow_no_forward decodeSample ⟨List.replicate 1048577 'a'⟩
    [] h).1, (overflow_no_forward decodeSample ⟨List.replicate 1048577 'a'⟩
    [] h).2⟩

/-! ### Claim C3 -/

/-- The decoder never sees a delimiter inside the all-`a` megabyte line. -/
theorem cexNoNewline : '\n' ∉ List.replicate 1048575 'a' := by
  intro hm
  exact absurd (List.eq_of_mem_replicate hm) (by decide)

/-- Per-line processing of the megabyte line under `decodeSample`. -/
theorem cexHandleLine : handleLine decodeSample (List.replicate 1048575 'a')
    = some ⟨['a'], List.replicate 1048575 'a'⟩ := by
  have hrepl : List.replicate 1048575 'a' =
      'a' :: List.replicate 1048574 'a' := by
    rw [show (1048575 : Nat) = 1048574 + 1 by norm_num, List.replicate_succ]
  unfold handleLine
  rw [jsTrim_of_no_ws _ (by
    intro c hc
    rw [List.eq_of_mem_replicate hc]
    rfl)]
  rw [if_neg (by rw [List.length_replicate]; decide)]
  rw [show decodeSample (List.replicate 1048575 'a') =
      some ⟨['a'], List.replicate 1048575 'a'⟩ by
    unfold decodeSample
    rw [hrepl]
    rfl]
  rfl

/-- Splitting the delimiter-terminated megabyte line. -/
theorem cexBreakLines : breakLines (List.replicate 1048575 'a' ++ ['\n']) =
    ([List.replicate 1048575 'a'], []) := by
  rw [show (List.replicate 1048575 'a' ++ ['\n'] : List Char) =
    List.replicate 1048575 'a' ++ '\n' :: [] from rfl]
  rw [breakLines_line _ cexNoNewline []]
  rfl

/-- Parsing the complete megabyte line alone stays within the ceiling and
dispatches its message. -/
theorem cexParseOk : parse decodeSample ⟨[]⟩
    (List.replicate 1048575 'a' ++ ['\n'])
    = (⟨[]⟩, .ok [⟨['a'], List.replicate 1048575 'a'⟩]) := by
  unfold parse
  rw [if_neg (by
    rw [show ((⟨[]⟩ : ParserState).buffer ++
        (List.replicate 1048575 'a' ++ ['\n'])) =
      List.replicate 1048575 'a' ++ ['\n'] from rfl]
    rw [List.length_append, List.length_replicate]
    decide)]
  rw [show ((⟨[]⟩ : ParserState).buffer ++
      (List.replicate 1048575 'a' ++ ['\n'])) =
    List.replicate 1048575 'a' ++ ['\n'] from rfl]
  rw [cexBreakLines]
  show ((⟨[]⟩ : ParserState), Except.ok (List.filterMap
    (handleLine decodeSample) [List.replicate 1048575 'a'])) = _
  rw [show List.filterMap (handleLine decodeSample)
      [List.replicate 1048575 'a'] =
    [⟨['a'], List.replicate 1048575 'a'⟩] by
    rw [List.filterMap_cons, cexHandleLine]
    rfl]

/-- Parsing the same stream as a single chunk trips the ceiling. -/
theorem cexParseOverflow : parse decodeSample ⟨[]⟩
    (List.replicate 1048575 'a' ++ '\n' :: ['b', 'b']) =
    (⟨List.replicate 1048575 'a' ++ '\n' :: ['b', 'b']⟩,
      .error .bufferOverflow) := by
  unfold parse
  rw [if_pos (by
    rw [show ((⟨[]⟩ : ParserState).buffer ++
        (List.replicate 1048575 'a' ++ '\n' :: ['b', 'b'])) =
      List.replicate 1048575 'a' ++ '\n' :: ['b', 'b'] from rfl]
    rw [List.length_append, List.length_replicate]
    decide)]
  rfl

/-- Claim C3 as stated is false: the same 1 MiB + 2 character stream,
split as one complete line followed by a small chunk versus delivered as a
single chunk, dispatches one message under the first chunking and none
under the second — the single big chunk trips the overflow check before
any line is processed, while the finer chunking never holds more than the
ceiling at once. -/
theorem chunking_invariance_cex :
    ([List.replicate 1048575 'a' ++ ['\n'], ['b', 'b']] :
        List (List Char)).flatten =
      ([List.replicate 1048575 'a' ++ '\n' :: ['b', 'b']] :
        List (List Char)).flatten ∧
    (runChunks decodeSample ⟨[]⟩
        [List.replicate 1048575 'a' ++ ['\n'], ['b', 'b']]).2.1 ≠
      (runChunks decodeSample ⟨[]⟩
        [List.replicate 1048575 'a' ++ '\n' :: ['b', 'b']]).2.1 := by
  constructor
  · show (List.replicate 1048575 'a' ++ ['\n']) ++ (['b', 'b'] ++ []) =
      (List.replicate 1048575 'a' ++ '\n' :: ['b', 'b']) ++ []
    rw [List.append_nil, List.append_nil, List.append_assoc]
    rfl
  · rw [show runChunks decodeSample ⟨[]⟩
        [List.replicate 1048575 'a' ++ ['\n'], ['b', 'b']] =
        (⟨['b', 'b']⟩, [⟨['a'], List.replicate 1048575 'a'⟩], false) by
      rw [runChunks, cexParseOk]
      rfl]
    rw [show runChunks decodeSample ⟨[]⟩
        [List.replicate 1048575 'a' ++ '\n' :: ['b', 'b']] =
        (⟨List.replicate 1048575 'a' ++ '\n' :: ['b', 'b']⟩, [], true) by
      rw [runChunks, cexParseOverflow]
      rfl]
    exact List.cons_ne_nil _ _

/-- Claim C3 (amended): chunking invariance holds for every two chunkings
of the same stream on which no `parse` call faults — the dispatched
message sequences and the final buffers are then identical regardless of
where the chunk boundaries fall. -/
theorem chunking_invariance (d : List Char → Option JsonObj)
    (cs1 cs2 : List (List Char)) (st1 st2 : ParserState)
    (ms1 ms2 : List JsonObj)
    (hjoin : cs1.flatten = cs2.flatten)
    (h1 : runChunks d ⟨[]⟩ cs1 = (st1, ms1, false))
    (h2 : runChunks d ⟨[]⟩ cs2 = (st2, ms2, false)) :
    ms1 = ms2 ∧ st1 = st2 := by
  have a1 := runChunks_ok d cs1 [] st1 ms1 (by simp) h1
  have a2 := runChunks_ok d cs2 [] st2 ms2 (by simp) h2
  rw [List.nil_append] at a1 a2
  rw [hjoin] at a1
  refine ⟨a1.2.trans a2.2.symm, ?_⟩
  have hb := a1.1.trans a2.1.symm
  cases st1 with
  | mk b1 =>
    cases st2 with
    | mk b2 => simpa using hb

/-- Witness for the amended C3: a delimiter split across two chunks versus
the same stream in one chunk. -/
theorem chunking_invariance_witness :
    (([['x'], ['y', '\n']] : List (List Char)).flatten =
      ([['x', 'y', '\n']] : List (List Char)).flatten) ∧
    runChunks decodeSample ⟨[]⟩ [['x'], ['y', '\n']] =
      (⟨[]⟩, [⟨['a'], ['x', 'y']⟩], false) ∧
    runChunks decodeSample ⟨[]⟩ [['x', 'y', '\n']] =
      (⟨[]⟩, [⟨['a'], ['x', 'y']⟩], false) ∧
    ([⟨['a'], ['x', 'y']⟩] : List JsonObj) = [⟨['a'], ['x', 'y']⟩] ∧
    (⟨[]⟩ : ParserState) = ⟨[]⟩ :=
  ⟨by decide, by decide, by decide,
    chunking_invariance decodeSample [['x'], ['y', '\n']] [['x', 'y', '\n']]
      ⟨[]⟩ ⟨[]⟩ [⟨['a'], ['x', 'y']⟩] [⟨['a'], ['x', 'y']⟩]
      (by decide) (by decide) (by decide) |>.1,
    chunking_invariance decodeSample [['x'], ['y', '\n']] [['x', 'y', '\n']]
      ⟨[]⟩ ⟨[]⟩ [⟨['a'], ['x', 'y']⟩] [⟨['a'], ['x', 'y']⟩]
      (by decide) (by decide) (by decide) |>.2⟩

/-! ### Claim C4 -/

/-- Claim C4: for complete delimiter-terminated lines fed to the decoder,
segments empty after trimming are skipped, segments on which the
structured decode fails are silently dropped without a fault, decoded
messages of type `system` are discarded without forwarding, and every
other decoded message is dispatched exactly once, in line-arrival order —
the dispatched sequence is exactly the in-order `filterMap` of the
per-line processing over the lines. -/
theorem line_classification (d : List Char → Option JsonObj)
    (lines : List (List Char))
    (hnl : ∀ l ∈ lines, '\n' ∉ l)
    (hlen : (joinLines lines).length ≤ MAX_BUFFER_SIZE) :
    parse d ⟨[]⟩ (joinLines lines) =
      (⟨[]⟩, .ok (lines.filterMap (handleLine d))) ∧
    (∀ line, (jsTrim line).length = 0 → handleLine d line = none) ∧
    (∀ line, d line = none → handleLine d line = none) ∧
    (∀ line j, d line = some j → j.type = ("system").toList →
      handleLine d line = none) ∧
    (∀ line j, (jsTrim line).length ≠ 0 → d line = some j →
      j.type ≠ ("system").toList → handleLine d line = some j) := by
  refine ⟨?_, ?_, ?_, ?_, ?_⟩
  · unfold parse
    rw [if_neg (by
      rw [show ((⟨[]⟩ : ParserState).buffer ++ joinLines lines) =
        joinLines lines from rfl]
      exact not_lt.mpr hlen)]
    rw [show ((⟨[]⟩ : ParserState).buffer ++ joinLines lines) =
      joinLines lines from rfl]
    rw [breakLines_joinLines lines hnl]
  · intro line h
    simp [handleLine, h]
  · intro line h
    unfold handleLine
    by_cases htr : (jsTrim line).length = 0
    · rw [if_pos htr]
    · rw [if_neg htr, h]
  · intro line j hd hsys
    unfold handleLine
    by_cases htr : (jsTrim line).length = 0
    · rw [if_pos htr]
    · rw [if_neg htr, hd]
      simp [processMessage, hsys]
  · intro line j htr hd hns
    unfold handleLine
    rw [if_neg htr, hd]
    show (if j.type = ("system").toList then none else some j :
      Option JsonObj) = some j
    rw [if_neg hns]

/-- Witness for C4 over one line of each kind: a forwarded message, a
decode failure, a system message and a whitespace-only segment. -/
theorem line_classification_witness :
    (∀ l ∈ ([['b'], ['!'], ['s'], [' ']] : List (List Char)), '\n' ∉ l) ∧
    (joinLines [['b'], ['!'], ['s'], [' ']]).length ≤ MAX_BUFFER_SIZE ∧
    (parse decodeSample ⟨[]⟩ (joinLines [['b'], ['!'], ['s'], [' ']]) =
      (⟨[]⟩, .ok (([['b'], ['!'], ['s'], [' ']] :
        List (List Char)).filterMap (handleLine decodeSample))) ∧
    (∀ line, (jsTrim line).length = 0 →
      handleLine decodeSample line = none) ∧
    (∀ line, decodeSample line = none →
      handleLine decodeSample line = none) ∧
    (∀ line j, decodeSample line = some j → j.type = ("system").toList →
      handleLine decodeSample line = none) ∧
    (∀ line j, (jsTrim line).length ≠ 0 → decodeSample line = some j →
      j.type ≠ ("system").toList →
      handleLine decodeSample line = some j)) :=
  ⟨by decide, by decide,
    line_classification decodeSample [['b'], ['!'], ['s'], [' ']]
      (by decide) (by decide)⟩

/-! ### Claim C10 -/

/-- Claim C10: after any fault-free sequence of parse calls, the decoder
buffer contains no delimiter and is exactly the suffix of the cumulative
input after its last delimiter (the whole input when no delimiter has been
seen), and every delimiter-terminated line has been processed: the
dispatched messages are exactly the in-order per-line processing of the
complete lines of the cumulative input. -/
theorem buffer_suffix_invariant (d : List Char → Option JsonObj)
    (cs : List (List Char)) (st : ParserState) (ms : List JsonObj)
    (h : runChunks d ⟨[]⟩ cs = (st, ms, false)) :
    '\n' ∉ st.buffer ∧
    joinLines (breakLines cs.flatten).1 ++ st.buffer = cs.flatten ∧
    (cs.flatten = st.buffer ∨
      ∃ pre, cs.flatten = pre ++ '\n' :: st.buffer) ∧
    ms = (breakLines cs.flatten).1.filterMap (handleLine d) := by
  have a := runChunks_ok d cs [] st ms (by simp) h
  rw [List.nil_append] at a
  obtain ⟨hbuf, hms⟩ := a
  refine ⟨?_, ?_, ?_, hms⟩
  · rw [hbuf]
    exact breakLines_snd_no_newline _
  · rw [hbuf]
    exact breakLines_reconstruct _
  · rcases hls : (breakLines cs.flatten).1 with - | ⟨l0, ls2⟩
    · left
      have hrec := breakLines_reconstruct cs.flatten
      rw [hls] at hrec
      rw [hbuf]
      simpa [joinLines] using hrec.symm
    · right
      obtain ⟨q, hq⟩ := joinLines_ends (breakLines cs.flatten).1
        (by rw [hls]; exact List.cons_ne_nil _ _)
      refine ⟨q, ?_⟩
      rw [hbuf]
      calc cs.flatten
          = joinLines (breakLines cs.flatten).1 ++ (breakLines cs.flatten).2
            := (breakLines_reconstruct _).symm
        _ = (q ++ ['\n']) ++ (breakLines cs.flatten).2 := by rw [hq]
        _ = q ++ '\n' :: (breakLines cs.flatten).2 := by simp

/-- Witness for C10 on a concrete chunk run with a trailing partial
line. -/
theorem buffer_suffix_invariant_witness :
    runChunks decodeSample ⟨[]⟩ [['x', '\n', 'y']] =
      (⟨['y']⟩, [⟨['a'], ['x']⟩], false) ∧
    ('\n' ∉ (⟨['y']⟩ : ParserState).buffer ∧
    joinLines (breakLines ([['x', '\n', 'y']] :
        List (List Char)).flatten).1 ++ (⟨['y']⟩ : ParserState).buffer =
      ([['x', '\n', 'y']] : List (List Char)).flatten ∧
    (([['x', '\n', 'y']] : List (List Char)).flatten =
        (⟨['y']⟩ : ParserState).buffer ∨
      ∃ pre, ([['x', '\n', 'y']] : List (List Char)).flatten =
        pre ++ '\n' :: (⟨['y']⟩ : ParserState).buffer) ∧
    ([⟨['a'], ['x']⟩] : List JsonObj) =
      (breakLines ([['x', '\n', 'y']] :
        List (List Char)).flatten).1.filterMap (handleLine decodeSample)) :=
  ⟨by decide,
    buffer_suffix_invariant decodeSample [['x', '\n', 'y']] ⟨['y']⟩
      [⟨['a'], ['x']⟩] (by decide)⟩

/-! ### Claim C6 -/

/-- Claim C6: along every possible event sequence from startup, the global
active-connection counter stays between 0 and `MAX_CONNECTIONS` (= 3) and
equals the number of open accepted connections; a connection arriving at
the ceiling is refused with the state untouched (so before any
per-connection state is created); an accepted connection increments the
counter by exactly one; a close decrements it by exactly one; and after
closing one connection at the ceiling exactly one new connection is
accepted, the next being refused again. -/
theorem connection_ceiling (evs : List ConnEvent) (s : ServerState)
    (h : runEvents initialServerState evs = some s) :
    (0 ≤ s.active ∧ s.active ≤ MAX_CONNECTIONS) ∧
    (∀ ok, s.active = MAX_CONNECTIONS → handleConnect s ok = (s, false)) ∧
    (s.active < MAX_CONNECTIONS →
      handleConnect s true = (⟨s.active + 1, s.opened + 1⟩, true)) ∧
    ((handleClose s).active = s.active - 1) ∧
    (s.active = MAX_CONNECTIONS →
      (handleConnect (handleClose s) true).2 = true ∧
      (handleConnect (handleConnect (handleClose s) true).1 true).2 =
        false) := by
  obtain ⟨h1, h2⟩ := runEvents_inv evs initialServerState s
    (by rfl) (by norm_num [initialServerState]) h
  refine ⟨⟨?_, ?_⟩, ?_, ?_, rfl, ?_⟩
  · rw [h1]
    exact Int.natCast_nonneg _
  · rw [h1]
    show (s.opened : Int) ≤ 3
    exact_mod_cast h2
  · intro ok hfull
    cases ok with
    | false => rfl
    | true => simp [handleConnect, hfull]
  · intro hlt
    simp [handleConnect, not_le.mpr hlt]
  · intro hfull
    have hf3 : s.active = 3 := hfull
    constructor
    · show (handleConnect ⟨s.active - 1, s.opened - 1⟩ true).2 = true
      rw [hf3]
      simp [handleConnect, MAX_CONNECTIONS]
    · rw [show handleConnect (handleClose s) true =
        (⟨s.active - 1 + 1, (s.opened - 1) + 1⟩, true) by
          show handleConnect ⟨s.active - 1, s.opened - 1⟩ true = _
          rw [hf3]
          simp [handleConnect, MAX_CONNECTIONS]]
      rw [show s.active - 1 + 1 = s.active by ring, hf3]
      simp [handleConnect, MAX_CONNECTIONS]

/-- Witness for C6 after one accepted connection. -/
theorem connection_ceiling_witness :
    runEvents initialServerState [.connect true] = some ⟨1, 1⟩ ∧
    ((0 ≤ (⟨1, 1⟩ : ServerState).active ∧
      (⟨1, 1⟩ : ServerState).active ≤ MAX_CONNECTIONS) ∧
    (∀ ok, (⟨1, 1⟩ : ServerState).active = MAX_CONNECTIONS →
      handleConnect ⟨1, 1⟩ ok = (⟨1, 1⟩, false)) ∧
    ((⟨1, 1⟩ : ServerState).active < MAX_CONNECTIONS →
      handleConnect ⟨1, 1⟩ true =
        (⟨(⟨1, 1⟩ : ServerState).active + 1,
          (⟨1, 1⟩ : ServerState).opened + 1⟩, true)) ∧
    ((handleClose ⟨1, 1⟩).active = (⟨1, 1⟩ : ServerState).active - 1) ∧
    ((⟨1, 1⟩ : ServerState).active = MAX_CONNECTIONS →
      (handleConnect (handleClose ⟨1, 1⟩) true).2 = true ∧
      (handleConnect (handleConnect (handleClose ⟨1, 1⟩) true).1
        true).2 = false)) :=
  ⟨by decide, connection_ceiling [.connect true] ⟨1, 1⟩ (by decide)⟩

/-! ### Claim C7 -/

/-- Claim C7: a start request whose resumption token does not match the
32-hex-digit 8-4-4-4-12 format fails with a validation error before any
external process is spawned (`spawned = false`, state unchanged), the
connection stays open, and a subsequent start with a well-formed token
succeeds, spawning the process with the token in its arguments. -/
theorem bad_token_fails_request (base dflt : List (List Char))
    (sid sid2 : List Char)
    (hbad : matchesSessionIdPattern sid = false) (hne : sid ≠ [])
    (hgood : matchesSessionIdPattern sid2 = true) :
    handleMessage base dflt ⟨none, none⟩ (.start (some sid)) =
      ⟨⟨none, none⟩, [.errorNotice genericErrorText], none, false, false⟩ ∧
    handleMessage base dflt ⟨none, none⟩ (.start (some sid2)) =
      ⟨⟨some ⟨some sid2,
          some ⟨("claude").toList, cliArgs (some sid2), false, [], false⟩⟩,
        some ⟨[]⟩⟩, [.started (some sid2)], none, true, false⟩ := by
  have hne2 : sid2 ≠ [] := by
    intro he
    rw [he] at hgood
    exact absurd hgood (by decide)
  have hv : validateSessionId sid = .error .invalidSessionId := by
    unfold validateSessionId
    rw [hbad]
    rfl
  have hv2 : validateSessionId sid2 = .ok () := by
    unfold validateSessionId
    rw [hgood]
    rfl
  have hnew : CLIRunner.new (some sid) = .error .invalidSessionId := by
    unfold CLIRunner.new
    rw [jsOptStr_some_ne sid hne]
    show (match validateSessionId sid with
      | .error e => (.error e : Except JsError CLIRunner)
      | .ok _ => .ok ⟨some sid, none⟩) = _
    rw [hv]
  have hnew2 : CLIRunner.new (some sid2) = .ok ⟨some sid2, none⟩ := by
    unfold CLIRunner.new
    rw [jsOptStr_some_ne sid2 hne2]
    show (match validateSessionId sid2 with
      | .error e => (.error e : Except JsError CLIRunner)
      | .ok _ => .ok ⟨some sid2, none⟩) = _
    rw [hv2]
  constructor
  · show (match CLIRunner.new (jsOptStr (some sid)) with
      | .error _ => (⟨⟨none, none⟩, [.errorNotice genericErrorText],
          none, false, false⟩ : HandleResult)
      | .ok r =>
        match r.start with
        | .error _ => ⟨⟨none, none⟩, [.errorNotice genericErrorText],
            none, false, false⟩
        | .ok r1 => ⟨⟨some r1, some ⟨[]⟩⟩,
            [.started (jsOptStr (some sid))], none, true, false⟩) = _
    rw [jsOptStr_some_ne sid hne, hnew]
  · show (match CLIRunner.new (jsOptStr (some sid2)) with
      | .error _ => (⟨⟨none, none⟩, [.errorNotice genericErrorText],
          none, false, false⟩ : HandleResult)
      | .ok r =>
        match r.start with
        | .error _ => ⟨⟨none, none⟩, [.errorNotice genericErrorText],
            none, false, false⟩
        | .ok r1 => ⟨⟨some r1, some ⟨[]⟩⟩,
            [.started (jsOptStr (some sid2))], none, true, false⟩) = _
    rw [jsOptStr_some_ne sid2 hne2, hnew2]
    show (match (⟨some sid2, none⟩ : CLIRunner).start with
      | .error _ => (⟨⟨none, none⟩, [.errorNotice genericErrorText],
          none, false, false⟩ : HandleResult)
      | .ok r1 => ⟨⟨some r1, some ⟨[]⟩⟩,
          [.started (some sid2)], none, true, false⟩) = _
    rw [CLIRunner.start_shape ⟨some sid2, none⟩ rfl]

/-- Witness for C7 with a malformed and a well-formed token. -/
theorem bad_token_fails_request_witness :
    matchesSessionIdPattern (("bad").toList) = false ∧
    ("bad").toList ≠ [] ∧
    matchesSessionIdPattern
      (("550e8400-e29b-41d4-a716-446655440000").toList) = true ∧
    (handleMessage [] [] ⟨none, none⟩ (.start (some (("bad").toList))) =
      ⟨⟨none, none⟩, [.errorNotice genericErrorText], none, false, false⟩ ∧
    handleMessage [] [] ⟨none, none⟩
        (.start (some (("550e8400-e29b-41d4-a716-446655440000").toList))) =
      ⟨⟨some ⟨some (("550e8400-e29b-41d4-a716-446655440000").toList),
          some ⟨("claude").toList,
            cliArgs (some (("550e8400-e29b-41d4-a716-446655440000").toList)),
            false, [], false⟩⟩,
        some ⟨[]⟩⟩,
        [.started (some (("550e8400-e29b-41d4-a716-446655440000").toList))],
        none, true, false⟩) :=
  ⟨by decide, by decide, by decide,
    bad_token_fails_request [] [] (("bad").toList)
      (("550e8400-e29b-41d4-a716-446655440000").toList)
      (by decide) (by decide) (by decide)⟩

/-! ### Claim C8 -/

/-- Claim C8: a list-sessions request whose project name resolves outside
the configured projects base directory fails with the generic error notice
before the Session Directory collaborator is invoked (`dirInvoked = none`),
the state is unchanged, the connection stays open, and no sessions
response is sent. -/
theorem traversal_rejected (base dflt : List (List Char)) (st : ConnState)
    (name : List Char) (hne : name ≠ [])
    (hout : base.isPrefixOf (jsPathResolve base name) = false) :
    handleMessage base dflt st (.listSessions (some name)) =
      ⟨st, [.errorNotice genericErrorText], none, false, false⟩ := by
  show (match jsOptStr (some name) with
    | some nm =>
      if base.isPrefixOf (jsPathResolve base nm) then
        (⟨st, [.sessionsResp (jsPathResolve base nm)],
          some (jsPathResolve base nm), false, false⟩ : HandleResult)
      else ⟨st, [.errorNotice genericErrorText], none, false, false⟩
    | none => ⟨st, [.sessionsResp dflt], some dflt, false, false⟩) = _
  rw [jsOptStr_some_ne name hne]
  show (if base.isPrefixOf (jsPathResolve base name) then
      (⟨st, [.sessionsResp (jsPathResolve base name)],
        some (jsPathResolve base name), false, false⟩ : HandleResult)
    else ⟨st, [.errorNotice genericErrorText], none, false, false⟩) = _
  rw [hout]
  rfl

/-- Witness for C8 with the traversal attempt `../etc`. -/
theorem traversal_rejected_witness :
    ("../etc").toList ≠ [] ∧
    ([("home").toList, ("u").toList, (".claude").toList,
        ("projects").toList] :
      List (List Char)).isPrefixOf
        (jsPathResolve [("home").toList, ("u").toList, (".claude").toList,
          ("projects").toList] (("../etc").toList)) = false ∧
    handleMessage [("home").toList, ("u").toList, (".claude").toList,
        ("projects").toList] [] ⟨none, none⟩
        (.listSessions (some (("../etc").toList))) =
      ⟨⟨none, none⟩, [.errorNotice genericErrorText], none, false, false⟩ :=
  ⟨by decide, by decide,
    traversal_rejected [("home").toList, ("u").toList, (".claude").toList,
        ("projects").toList] [] ⟨none, none⟩ (("../etc").toList)
      (by decide) (by decide)⟩

end TinyCC
